import Mathlib

/-! Multi-client chat server: the `ChatServer` event loop of `src/server.cpp`.

A shallow embedding of the server class: the client registry (`clients`), the
watched descriptor set (`master_set`), `max_fd`, and the member functions
`acceptNewClient`, `handleClientMessage`, `broadcastMessage` and the client
loop of `run`.

Conventions of the embedding.

* Socket calls (`accept`, `recv`, `send`) are answered by an environment `Env`.
  Every answer may depend on the whole history of I/O performed so far, so any
  sequence of accept outcomes, received data and send failures is covered.
* Everything the server does to the outside world is appended to `State.trace`
  (socket calls with their return values, `close`, and the console lines).
* Every `send` of the source passes flags 0 and the program never changes the
  disposition of SIGPIPE. A `send` to a connection the peer has reset therefore
  does not return: it raises SIGPIPE and the process is terminated on the spot.
  `Env.sigpipe` says when that happens and `State.killed` records it.
* `std::string` is `String`, a byte is a `Char`; the receive buffer is a
  `List Char` of `BUFFER_SIZE` cells.
* `fd_set` is one bit per descriptor, `Int → Bool`; descriptors are taken to lie
  in the range an `fd_set` can hold.
* `clients[i]` outside the vector is undefined behaviour in C++; here it is the
  explicit failure `Fault.outOfBounds`.
-/

namespace ChatServer

/-! ## Constants and data model -/

def MAX_CLIENTS : Nat := 10

def BUFFER_SIZE : Nat := 1024

/-- The record `struct Client`. -/
structure Client where
  socket : Int
  username : String
  authenticated : Bool
deriving DecidableEq, Repr

/-- One observable action of the server, with the value the call returned.
`sigpipe fd msg` is the `send` of `msg` on `fd` that raised SIGPIPE and did not
return. -/
inductive Event where
  | accept (ret : Int)
  | recv (fd : Int) (ret : Int)
  | send (fd : Int) (msg : String) (ret : Int)
  | sigpipe (fd : Int) (msg : String)
  | close (fd : Int)
  | cout (text : String)
  | cerr (text : String)
deriving DecidableEq, Repr

/-- The operating system as seen by the server. `accept` gives the returned
descriptor and the printable peer address; `recv` gives `none` for a failed
read (return value `-1`) and otherwise the bytes the peer stream holds (an empty
list is an orderly shutdown); `sigpipe` tells whether a `send` to a registered
peer raises SIGPIPE (the peer has reset the connection), and `send` gives the
return value of a `send` that returns (negative for a failure). -/
structure Env where
  accept : List Event → Int × String
  recv : List Event → Int → Option (List Char)
  send : List Event → Int → String → Int
  sigpipe : List Event → Int → String → Bool

/-- The `fd_set` type: one bit per descriptor. -/
abbrev FdSet := Int → Bool

def FD_ZERO : FdSet := fun _ => false

def FD_SET (fd : Int) (set : FdSet) : FdSet := fun x => if x = fd then true else set x

def FD_CLR (fd : Int) (set : FdSet) : FdSet := fun x => if x = fd then false else set x

def FD_ISSET (fd : Int) (set : FdSet) : Bool := set fd

/-- The data members of `class ChatServer` (without `port`, which only
`initializeServer` reads) together with the I/O history and the fate of the
process: `killed` is set by a `send` that raised SIGPIPE, after which the
process runs no further statement. -/
structure State where
  server_socket : Int
  clients : List Client
  master_set : FdSet
  max_fd : Int
  trace : List Event
  killed : Bool

/-- Undefined behaviour made explicit, and exhaustion of the loop budget. -/
inductive Fault where
  | outOfBounds
  | outOfFuel
deriving DecidableEq, Repr

/-- Append one event to the history. -/
def emit (e : Event) (s : State) : State :=
  { s with trace := s.trace ++ [e] }

/-! ## C strings in the receive buffer -/

def NUL : Char := Char.ofNat 0

def NEWLINE : Char := Char.ofNat 10

/-- `strcspn(s, reject)`: the length of the initial part of the C string `s`
that holds no character of `reject`; the scan also stops at the terminator. -/
def strcspn (s : List Char) (reject : List Char) : Nat :=
  (s.takeWhile (fun ch => ch != NUL && !reject.contains ch)).length

/-- `std::string(buffer)`: the characters before the first NUL. -/
def cString (buffer : List Char) : String :=
  String.mk (buffer.takeWhile (fun ch => ch != NUL))

/-- The state of `buffer` after `memset(buffer, 0, BUFFER_SIZE)` and
`recv(fd, buffer, BUFFER_SIZE - 1, 0)`, with the value `recv` returned: at most
`BUFFER_SIZE - 1` bytes are stored, the cells behind them stay zero. -/
def recvInto (got : Option (List Char)) : Int × List Char :=
  match got with
  | none => (-1, List.replicate BUFFER_SIZE NUL)
  | some bytes =>
    (((bytes.take (BUFFER_SIZE - 1)).length : Int),
      bytes.take (BUFFER_SIZE - 1) ++
        List.replicate (BUFFER_SIZE - (bytes.take (BUFFER_SIZE - 1)).length) NUL)

/-! ## Member functions -/

/-- The range-for of `broadcastMessage` over the remaining records: the history
it leaves and whether a `send` raised SIGPIPE. A `send` that returns a negative
value is logged and the loop goes on; a `send` that raises SIGPIPE ends the
process inside the loop, so the records behind it are not served. -/
def broadcastLoop (env : Env) (message : String) (sender_socket : Int) :
    List Client → List Event → List Event × Bool
  | [], tr => (tr, false)
  | client :: rest, tr =>
    if client.socket ≠ sender_socket ∧ client.authenticated = true then
      if env.sigpipe tr client.socket message = true then
        (tr ++ [Event.sigpipe client.socket message], true)
      else if env.send tr client.socket message < 0 then
        broadcastLoop env message sender_socket rest
          (tr ++ [Event.send client.socket message (env.send tr client.socket message),
            Event.cerr "Error: Failed to send message to client\n"])
      else
        broadcastLoop env message sender_socket rest
          (tr ++ [Event.send client.socket message (env.send tr client.socket message)])
    else
      broadcastLoop env message sender_socket rest tr

/-- `ChatServer::broadcastMessage`. -/
def broadcastMessage (env : Env) (message : String) (sender_socket : Int) (s : State) : State :=
  { s with
    trace := (broadcastLoop env message sender_socket s.clients s.trace).1
    killed := s.killed || (broadcastLoop env message sender_socket s.clients s.trace).2 }

/-- `ChatServer::acceptNewClient`. Its two sends go to the descriptor `accept`
has just returned, on which nothing has been written yet: a connection the peer
has already given up is reported to this first write as a failure, not by
SIGPIPE, so these sends return. -/
def acceptNewClient (env : Env) (s : State) : State :=
  let client_socket := (env.accept s.trace).1
  let s1 := emit (Event.accept client_socket) s
  if client_socket < 0 then
    emit (Event.cerr "Error: Failed to accept client connection\n") s1
  else if s1.clients.length ≥ MAX_CLIENTS then
    let msg := "Server is full. Please try again later.\n"
    let s2 := emit (Event.send client_socket msg (env.send s1.trace client_socket msg)) s1
    emit (Event.close client_socket) s2
  else
    let welcome := "Enter your username: "
    let s2 := emit (Event.send client_socket welcome (env.send s1.trace client_socket welcome)) s1
    let new_client : Client := { socket := client_socket, username := "", authenticated := false }
    let s3 : State :=
      { s2 with
        clients := s2.clients ++ [new_client]
        master_set := FD_SET client_socket s2.master_set
        max_fd := if client_socket > s2.max_fd then client_socket else s2.max_fd }
    emit (Event.cout ("Server: New connection from " ++ (env.accept s.trace).2 ++ "\n")) s3

/-- `ChatServer::handleClientMessage`. Every `clients[client_index]` of the body
reads the same index while the vector keeps its length (the only resize is the
final `erase`), so one bounds check at entry stands for all of them. Where a
`send` has raised SIGPIPE the statements behind it are not run. -/
def handleClientMessage (env : Env) (client_index : Nat) (s : State) : Except Fault State :=
  match s.clients[client_index]? with
  | none => Except.error Fault.outOfBounds
  | some c =>
    let bytes_received := (recvInto (env.recv s.trace c.socket)).1
    let buffer := (recvInto (env.recv s.trace c.socket)).2
    let s1 := emit (Event.recv c.socket bytes_received) s
    if bytes_received ≤ 0 then
      let s2 :=
        if bytes_received = 0 then
          broadcastMessage env ("Server: " ++ c.username ++ " has left the chat\n") c.socket
            (emit (Event.cout ("Server: Client " ++ c.username ++ " disconnected\n")) s1)
        else
          emit (Event.cerr "Error: Failed to receive data from client\n") s1
      if s2.killed = true then Except.ok s2
      else
        Except.ok
          { s2 with
            master_set := FD_CLR c.socket s2.master_set
            trace := s2.trace ++ [Event.close c.socket]
            clients := s2.clients.eraseIdx client_index }
    else
      let line := cString (buffer.set (strcspn buffer [NEWLINE]) NUL)
      if c.authenticated = false then
        let s2 : State :=
          { s1 with
            clients := s1.clients.set client_index { c with username := line, authenticated := true } }
        let s3 := emit (Event.cout ("Server: Client " ++ line ++ " connected\n")) s2
        let welcome := "Welcome to the chat, " ++ line ++ "!\n"
        if env.sigpipe s3.trace c.socket welcome = true then
          Except.ok { emit (Event.sigpipe c.socket welcome) s3 with killed := true }
        else
          let s4 := emit (Event.send c.socket welcome (env.send s3.trace c.socket welcome)) s3
          Except.ok
            (broadcastMessage env ("Server: " ++ line ++ " has joined the chat\n") c.socket s4)
      else
        let message := c.username ++ ": " ++ line ++ "\n"
        let s2 := emit (Event.cout message) s1
        Except.ok (broadcastMessage env message c.socket s2)

/-- The client loop of one tick of `run`:
`for (size_t i = 0; i < clients.size(); i++)`, entered at index `i` with the
ready set `working_set`. `fuel` bounds the number of iterations. The loop is
over as soon as the process has been killed. -/
def clientLoop (env : Env) (working_set : FdSet) : Nat → Nat → State → Except Fault State
  | 0, _, _ => Except.error Fault.outOfFuel
  | fuel + 1, i, s =>
    if i < s.clients.length then
      match s.clients[i]? with
      | none => Except.error Fault.outOfBounds
      | some c =>
        if FD_ISSET c.socket working_set = true then
          match handleClientMessage env i s with
          | Except.error e => Except.error e
          | Except.ok s1 =>
            if s1.killed = true then Except.ok s1
            else if i ≥ s1.clients.length then Except.ok s1
            else clientLoop env working_set fuel (i + 1) s1
        else clientLoop env working_set fuel (i + 1) s
    else Except.ok s

/-- The server object when `run` enters its `while (true)`: constructed,
`initializeServer` has given `server_socket`, and the listening handle has been
registered (`FD_SET(server_socket, &master_set); max_fd = server_socket`). -/
def initState (server_socket : Int) : State :=
  { server_socket := server_socket
    clients := []
    master_set := FD_SET server_socket FD_ZERO
    max_fd := server_socket
    trace := []
    killed := false }

/-! ## Reading the history -/

/-- The events a step added to the history. -/
def newEvents (before after : State) : List Event :=
  after.trace.drop before.trace.length

/-- The `send` calls of a history: destination handle and text, in order, the
call that raised SIGPIPE included. -/
def sendsOf : List Event → List (Int × String)
  | [] => []
  | Event.send fd msg _ :: rest => (fd, msg) :: sendsOf rest
  | Event.sigpipe fd msg :: rest => (fd, msg) :: sendsOf rest
  | _ :: rest => sendsOf rest

/-- The handles closed in a history, in order. -/
def closesOf : List Event → List Int
  | [] => []
  | Event.close fd :: rest => fd :: closesOf rest
  | _ :: rest => closesOf rest

/-- The handles read (one `recv` per `handleClientMessage`) in a history. -/
def recvsOf : List Event → List Int
  | [] => []
  | Event.recv fd _ :: rest => fd :: recvsOf rest
  | _ :: rest => recvsOf rest

/-- The fan-out set of `broadcastMessage`: the records that pass its test
`client.socket != sender_socket && client.authenticated`, in registry order. -/
def recipients (clients : List Client) (sender_socket : Int) : List Client :=
  clients.filter (fun cl => decide (cl.socket ≠ sender_socket) && cl.authenticated)

/-- The text `handleClientMessage` takes from a read that delivered `bytes`: of
the bytes stored in the buffer, those before the first newline or NUL. -/
def firstLine (bytes : List Char) : String :=
  String.mk ((bytes.take (BUFFER_SIZE - 1)).takeWhile (fun ch => ch != NEWLINE && ch != NUL))

/-- The text in the words of the specification: the received bytes before the
first newline. -/
def bytesBeforeNewline (bytes : List Char) : String :=
  String.mk ((bytes.take (BUFFER_SIZE - 1)).takeWhile (fun ch => ch != NEWLINE))

/-! ## Reachable states -/

/-- The states the server passes through from `s0`: any number of
`acceptNewClient` and `handleClientMessage` steps, each accept being taken in a
state that satisfies `acceptOk`. Steps from a state whose process has been
killed are not excluded: the relation holds every state of a real run, and some
more. -/
inductive Reachable (env : Env) (acceptOk : State → Prop) (s0 : State) : State → Prop where
  | start : Reachable env acceptOk s0 s0
  | accept (s : State) : Reachable env acceptOk s0 s → acceptOk s →
      Reachable env acceptOk s0 (acceptNewClient env s)
  | read (s s1 : State) (client_index : Nat) : Reachable env acceptOk s0 s →
      handleClientMessage env client_index s = Except.ok s1 → Reachable env acceptOk s0 s1

/-- The assumption on `accept`: a successful call returns a descriptor that is
neither the listening handle nor the handle of a record in the registry. -/
def AcceptFresh (env : Env) (s : State) : Prop :=
  0 ≤ (env.accept s.trace).1 →
    (env.accept s.trace).1 ≠ s.server_socket ∧
      ∀ cl ∈ s.clients, cl.socket ≠ (env.accept s.trace).1

/-! ## Concrete inputs -/

/-- An environment whose every `recv` gives `got`; `accept` returns the
descriptor 7, `send` returns a failure on descriptor 5 only and no `send`
raises SIGPIPE. -/
def envOf (got : Option (List Char)) : Env :=
  { accept := fun _ => (7, "127.0.0.1")
    recv := fun _ _ => got
    send := fun _ fd _ => if fd = 5 then -1 else 1
    sigpipe := fun _ _ _ => false }

/-- An environment in which a `recv` on descriptor 4 gives `got` and the peer of
descriptor 5 has reset its connection: a `send` on 5 raises SIGPIPE. -/
def envReset5 (got : Option (List Char)) : Env :=
  { accept := fun _ => (8, "127.0.0.1")
    recv := fun _ fd => if fd = 4 then got else none
    send := fun _ _ _ => 1
    sigpipe := fun _ fd _ => decide (fd = 5) }

/-- An environment in which the peer of descriptor 4 has closed and every other
peer has sent `bytes`. -/
def envClosed4 (bytes : List Char) : Env :=
  { accept := fun _ => (7, "127.0.0.1")
    recv := fun _ fd => if fd = 4 then some [] else some bytes
    send := fun _ _ _ => 1
    sigpipe := fun _ _ _ => false }

/-- An environment whose `accept` returns a new descriptor on every call. -/
def envCounting : Env :=
  { accept := fun tr => ((tr.length : Int) + 4, "127.0.0.1")
    recv := fun _ _ => some []
    send := fun _ _ _ => 1
    sigpipe := fun _ _ _ => false }

/-- Two authenticated clients and one that has not yet sent its name. -/
def sampleState : State :=
  { server_socket := 3
    clients := [⟨4, "alice", true⟩, ⟨5, "bob", true⟩, ⟨6, "", false⟩]
    master_set := FD_SET 6 (FD_SET 5 (FD_SET 4 (FD_SET 3 FD_ZERO)))
    max_fd := 6
    trace := []
    killed := false }

/-- Three authenticated clients. -/
def trioState : State :=
  { server_socket := 3
    clients := [⟨4, "alice", true⟩, ⟨5, "bob", true⟩, ⟨7, "carol", true⟩]
    master_set := FD_SET 7 (FD_SET 5 (FD_SET 4 (FD_SET 3 FD_ZERO)))
    max_fd := 7
    trace := []
    killed := false }

/-- The state after `n` consecutive `acceptNewClient` calls. -/
def acceptTimes (env : Env) : Nat → State → State
  | 0, s => s
  | n + 1, s => acceptNewClient env (acceptTimes env n s)

/-- The bytes `h`, NUL, `i`, newline. -/
def nulBytes : List Char := ['h', NUL, 'i', NEWLINE]

/-- The bytes of the line `hi`. -/
def hiBytes : List Char := ['h', 'i', NEWLINE]

/-- The registry `[A, B]`: two authenticated clients. -/
def pairState : State :=
  { server_socket := 3
    clients := [⟨4, "alice", true⟩, ⟨5, "bob", true⟩]
    master_set := FD_SET 5 (FD_SET 4 (FD_SET 3 FD_ZERO))
    max_fd := 5
    trace := []
    killed := false }

/-- A ready set holding the handles 4 and 5. -/
def ready45 : FdSet := FD_SET 5 (FD_SET 4 FD_ZERO)

/-- The state after two accepted connections and the departure of the first. -/
def watchedSample : State :=
  match handleClientMessage envCounting 0 (acceptTimes envCounting 2 (initState 3)) with
  | Except.ok s => s
  | Except.error _ => initState 3

/-- The number of colons in a string. -/
def colons (x : String) : Nat := x.data.count ':'

/-! ## Lists, buffers and histories -/

theorem takeWhile_set_stop (p q : Char → Bool) (z : Char) (hz : q z = false)
    (hpq : ∀ ch, p ch = true → q ch = true) (l : List Char) :
    (l.set (l.takeWhile p).length z).takeWhile q = l.takeWhile p := by
  induction l with
  | nil => simp
  | cons a t ih =>
    by_cases ha : p a = true
    · simp [List.takeWhile_cons, ha, hpq a ha, ih]
    · simp [List.takeWhile_cons, ha, hz]

theorem takeWhile_append_replicate (p : Char → Bool) (z : Char) (hz : p z = false)
    (n : Nat) (l : List Char) :
    (l ++ List.replicate n z).takeWhile p = l.takeWhile p := by
  induction l with
  | nil => cases n <;> simp [List.replicate_succ, List.takeWhile_cons, hz]
  | cons a t ih => by_cases ha : p a = true <;> simp [List.takeWhile_cons, ha, ih]

theorem line_of_buffer (bytes : List Char) :
    cString ((recvInto (some bytes)).2.set (strcspn (recvInto (some bytes)).2 [NEWLINE]) NUL)
      = firstLine bytes := by
  unfold cString strcspn firstLine recvInto
  simp only []
  rw [takeWhile_set_stop _ _ NUL (by simp) (by intro ch h; simp at h; simp [h])]
  rw [takeWhile_append_replicate _ NUL (by simp)]
  congr 2
  funext ch
  by_cases h1 : ch = NUL <;> by_cases h2 : ch = NEWLINE <;> simp [h1, h2]

theorem sendsOf_append (a b : List Event) : sendsOf (a ++ b) = sendsOf a ++ sendsOf b := by
  induction a with
  | nil => rfl
  | cons e t ih => cases e <;> simp [sendsOf, ih]

theorem closesOf_append (a b : List Event) : closesOf (a ++ b) = closesOf a ++ closesOf b := by
  induction a with
  | nil => rfl
  | cons e t ih => cases e <;> simp [closesOf, ih]

theorem recvsOf_append (a b : List Event) : recvsOf (a ++ b) = recvsOf a ++ recvsOf b := by
  induction a with
  | nil => rfl
  | cons e t ih => cases e <;> simp [recvsOf, ih]

theorem newEvents_of_trace (s s1 : State) (evs : List Event) (h : s1.trace = s.trace ++ evs) :
    newEvents s s1 = evs := by
  simp [newEvents, h]

theorem recipients_cons (a : Client) (t : List Client) (sender_socket : Int) :
    recipients (a :: t) sender_socket =
      if a.socket ≠ sender_socket ∧ a.authenticated = true then a :: recipients t sender_socket
      else recipients t sender_socket := by
  simp [recipients, List.filter_cons]

/-- What one run of the broadcast loop adds to the history when no `send` of the
message to a record of the fan-out set raises SIGPIPE: one `send` per record of
the set, in order, and nothing but console lines besides; the process lives. -/
theorem broadcastLoop_spec (env : Env) (message : String) (sender_socket : Int)
    (cl : List Client) (tr : List Event)
    (hlive : ∀ tr1, ∀ r ∈ recipients cl sender_socket,
      env.sigpipe tr1 r.socket message = false) :
    ∃ evs, broadcastLoop env message sender_socket cl tr = (tr ++ evs, false) ∧
      sendsOf evs = (recipients cl sender_socket).map (fun r => (r.socket, message)) ∧
      closesOf evs = [] ∧ recvsOf evs = [] := by
  induction cl generalizing tr with
  | nil => exact ⟨[], by simp [broadcastLoop], rfl, rfl, rfl⟩
  | cons a t ih =>
    by_cases hp : a.socket ≠ sender_socket ∧ a.authenticated = true
    · rw [recipients_cons, if_pos hp] at hlive
      have hsig : env.sigpipe tr a.socket message = false :=
        hlive tr a (List.mem_cons_self _ _)
      have hlive1 : ∀ tr1, ∀ r ∈ recipients t sender_socket,
          env.sigpipe tr1 r.socket message = false :=
        fun tr1 r hr => hlive tr1 r (List.mem_cons_of_mem _ hr)
      by_cases hr : env.send tr a.socket message < 0
      · obtain ⟨evs, h1, h2, h3, h4⟩ := ih
          (tr ++ [Event.send a.socket message (env.send tr a.socket message),
            Event.cerr "Error: Failed to send message to client\n"]) hlive1
        refine ⟨[Event.send a.socket message (env.send tr a.socket message),
            Event.cerr "Error: Failed to send message to client\n"] ++ evs, ?_, ?_, ?_, ?_⟩
        · simp [broadcastLoop, hp, hr, h1, hsig]
        · rw [recipients_cons, if_pos hp]
          simp [sendsOf_append, sendsOf, h2]
        · simp [closesOf_append, closesOf, h3]
        · simp [recvsOf_append, recvsOf, h4]
      · obtain ⟨evs, h1, h2, h3, h4⟩ := ih
          (tr ++ [Event.send a.socket message (env.send tr a.socket message)]) hlive1
        refine ⟨[Event.send a.socket message (env.send tr a.socket message)] ++ evs, ?_, ?_, ?_, ?_⟩
        · simp [broadcastLoop, hp, hr, h1, hsig]
        · rw [recipients_cons, if_pos hp]
          simp [sendsOf_append, sendsOf, h2]
        · simp [closesOf_append, closesOf, h3]
        · simp [recvsOf_append, recvsOf, h4]
    · rw [recipients_cons, if_neg hp] at hlive
      obtain ⟨evs, h1, h2, h3, h4⟩ := ih tr hlive
      refine ⟨evs, ?_, ?_, h3, h4⟩
      · simp [broadcastLoop, hp, h1]
      · rw [h2, recipients_cons, if_neg hp]

/-! ## The branches of `handleClientMessage` -/

theorem recvInto_none : (recvInto none).1 = -1 := rfl

theorem recvInto_nil : (recvInto (some [])).1 = 0 := rfl

theorem recvInto_pos (bytes : List Char) (h : bytes ≠ []) : 0 < (recvInto (some bytes)).1 := by
  cases bytes with
  | nil => exact absurd rfl h
  | cons a t => simp [recvInto, BUFFER_SIZE]; omega

/-- The read failed in a running process: only the console line, then the
removal. -/
theorem handle_error (env : Env) (i : Nat) (s : State) (c : Client)
    (hc : s.clients[i]? = some c) (hrecv : env.recv s.trace c.socket = none)
    (hrun : s.killed = false) :
    handleClientMessage env i s = Except.ok
      { server_socket := s.server_socket
        clients := s.clients.eraseIdx i
        master_set := FD_CLR c.socket s.master_set
        max_fd := s.max_fd
        trace := s.trace ++ [Event.recv c.socket (-1),
          Event.cerr "Error: Failed to receive data from client\n", Event.close c.socket]
        killed := false } := by
  simp [handleClientMessage, hc, hrecv, recvInto_none, emit, hrun]

/-- The peer closed and the broadcast of the leave notice was not killed: the
removal follows. -/
theorem handle_closed (env : Env) (i : Nat) (s : State) (c : Client)
    (hc : s.clients[i]? = some c) (hrecv : env.recv s.trace c.socket = some [])
    (hrun : s.killed = false)
    (hlive : (broadcastLoop env ("Server: " ++ c.username ++ " has left the chat\n") c.socket
      s.clients (s.trace ++ [Event.recv c.socket 0,
        Event.cout ("Server: Client " ++ c.username ++ " disconnected\n")])).2 = false) :
    handleClientMessage env i s = Except.ok
      { server_socket := s.server_socket
        clients := s.clients.eraseIdx i
        master_set := FD_CLR c.socket s.master_set
        max_fd := s.max_fd
        trace := (broadcastLoop env ("Server: " ++ c.username ++ " has left the chat\n") c.socket
            s.clients (s.trace ++ [Event.recv c.socket 0,
              Event.cout ("Server: Client " ++ c.username ++ " disconnected\n")])).1
          ++ [Event.close c.socket]
        killed := false } := by
  simp [handleClientMessage, hc, hrecv, recvInto_nil, emit, broadcastMessage, hrun, hlive]

/-- First data of an unauthenticated record, the welcome line not raising
SIGPIPE: the username claim. -/
theorem handle_join (env : Env) (i : Nat) (s : State) (c : Client) (bytes : List Char)
    (hc : s.clients[i]? = some c) (hrecv : env.recv s.trace c.socket = some bytes)
    (hpos : bytes ≠ []) (hauth : c.authenticated = false)
    (hwel : ∀ tr1, env.sigpipe tr1 c.socket ("Welcome to the chat, " ++ firstLine bytes ++ "!\n")
      = false) :
    handleClientMessage env i s = Except.ok
      (broadcastMessage env ("Server: " ++ firstLine bytes ++ " has joined the chat\n") c.socket
        { server_socket := s.server_socket
          clients := s.clients.set i
            { socket := c.socket, username := firstLine bytes, authenticated := true }
          master_set := s.master_set
          max_fd := s.max_fd
          trace := s.trace ++ [Event.recv c.socket (recvInto (some bytes)).1,
            Event.cout ("Server: Client " ++ firstLine bytes ++ " connected\n"),
            Event.send c.socket ("Welcome to the chat, " ++ firstLine bytes ++ "!\n")
              (env.send (s.trace ++ [Event.recv c.socket (recvInto (some bytes)).1,
                  Event.cout ("Server: Client " ++ firstLine bytes ++ " connected\n")])
                c.socket ("Welcome to the chat, " ++ firstLine bytes ++ "!\n"))]
          killed := s.killed }) := by
  have h := recvInto_pos bytes hpos
  simp [handleClientMessage, hc, hrecv, emit, not_le.mpr h, hauth, line_of_buffer, hwel]

/-- Data of an authenticated record: the chat line. -/
theorem handle_chat (env : Env) (i : Nat) (s : State) (c : Client) (bytes : List Char)
    (hc : s.clients[i]? = some c) (hrecv : env.recv s.trace c.socket = some bytes)
    (hpos : bytes ≠ []) (hauth : c.authenticated = true) :
    handleClientMessage env i s = Except.ok
      (broadcastMessage env (c.username ++ ": " ++ firstLine bytes ++ "\n") c.socket
        { server_socket := s.server_socket
          clients := s.clients
          master_set := s.master_set
          max_fd := s.max_fd
          trace := s.trace ++ [Event.recv c.socket (recvInto (some bytes)).1,
            Event.cout (c.username ++ ": " ++ firstLine bytes ++ "\n")]
          killed := s.killed }) := by
  have h := recvInto_pos bytes hpos
  simp [handleClientMessage, hc, hrecv, emit, not_le.mpr h, hauth, line_of_buffer]

/-! ## Strings and fan-out sets -/

theorem colons_append (x y : String) : colons (x ++ y) = colons x + colons y := by
  simp [colons, String.data_append, List.count_append]

theorem welcome_ne_chat (u t : String) :
    "Welcome to the chat, " ++ t ++ "!\n" ≠ u ++ ": " ++ t ++ "\n" := by
  intro h
  have h1 := congrArg colons h
  simp only [colons_append] at h1
  have e1 : colons "Welcome to the chat, " = 0 := by decide
  have e2 : colons "!\n" = 0 := by decide
  have e3 : colons ": " = 1 := by decide
  have e4 : colons "\n" = 0 := by decide
  omega

theorem join_ne_chat (u t : String) :
    "Server: " ++ t ++ " has joined the chat\n" ≠ u ++ ": " ++ t ++ "\n" := by
  intro h
  have h1 := congrArg colons h
  simp only [colons_append] at h1
  have e1 : colons "Server: " = 1 := by decide
  have e2 : colons " has joined the chat\n" = 0 := by decide
  have e3 : colons ": " = 1 := by decide
  have e4 : colons "\n" = 0 := by decide
  have hu : colons u = 0 := by omega
  have h2 := congrArg String.length h
  simp only [String.length_append] at h2
  have l1 : "Server: ".length = 8 := by decide
  have l2 : " has joined the chat\n".length = 21 := by decide
  have l3 : ": ".length = 2 := by decide
  have l4 : "\n".length = 1 := by decide
  have hlen : u.length = 26 := by omega
  have h3 := congrArg (fun x => x.data.take 7) h
  simp only [String.data_append, List.append_assoc] at h3
  have hu7 : 7 ≤ u.data.length := by
    have : u.data.length = u.length := rfl
    omega
  rw [List.take_append_of_le_length hu7] at h3
  simp only [List.cons_append, List.take_succ_cons, List.take_zero] at h3
  have hmem : ':' ∈ u.data.take 7 := by rw [← h3]; simp
  have hmem2 : ':' ∈ u.data := List.mem_of_mem_take hmem
  have : 0 < colons u := List.count_pos_iff.mpr hmem2
  omega

theorem recipients_set (clients : List Client) (i : Nat) (c c1 : Client)
    (hc : clients[i]? = some c) (hsock : c1.socket = c.socket) :
    recipients (clients.set i c1) c.socket = recipients clients c.socket := by
  induction clients generalizing i with
  | nil => simp
  | cons a t ih =>
    cases i with
    | zero =>
      simp at hc
      subst hc
      simp [recipients_cons, hsock]
    | succ j =>
      simp at hc
      simp [recipients_cons, ih j hc]

theorem recipients_of_nodup (clients : List Client) (i : Nat) (c : Client)
    (hnd : (clients.map Client.socket).Nodup) (hc : clients[i]? = some c) :
    recipients clients c.socket = (clients.eraseIdx i).filter (fun r => r.authenticated) := by
  induction clients generalizing i with
  | nil => simp at hc
  | cons a t ih =>
    simp only [List.map_cons, List.nodup_cons] at hnd
    cases i with
    | zero =>
      simp at hc
      subst hc
      simp only [recipients_cons, ne_eq, not_true_eq_false, false_and, if_false,
        List.eraseIdx_cons_zero]
      unfold recipients
      apply List.filter_congr
      intro r hr
      have : r.socket ≠ a.socket := by
        intro h
        exact hnd.1 (h ▸ List.mem_map_of_mem Client.socket hr)
      simp [this]
    | succ j =>
      simp at hc
      have hmem : c ∈ t := List.getElem?_mem hc
      have hne : a.socket ≠ c.socket := by
        intro h
        exact hnd.1 (h ▸ List.mem_map_of_mem Client.socket hmem)
      simp only [recipients_cons, List.eraseIdx_cons_succ, List.filter_cons, ih j hnd.2 hc]
      by_cases ha : a.authenticated = true <;> simp [ha, hne]

theorem mem_recipients (clients : List Client) (sender_socket : Int) (r : Client)
    (h : r ∈ recipients clients sender_socket) :
    r ∈ clients ∧ r.authenticated = true ∧ r.socket ≠ sender_socket := by
  simp [recipients, List.mem_filter] at h
  exact ⟨h.1, h.2.2, h.2.1⟩

/-! ## How the two steps change the registry -/

theorem handle_total (env : Env) (i : Nat) (s : State) (h : i < s.clients.length) :
    ∃ s1, handleClientMessage env i s = Except.ok s1 := by
  have hc : s.clients[i]? = some s.clients[i] := List.getElem?_eq_getElem h
  simp only [handleClientMessage, hc]
  split_ifs <;> exact ⟨_, rfl⟩

theorem handle_registry (env : Env) (i : Nat) (s s1 : State)
    (h : handleClientMessage env i s = Except.ok s1) :
    ∃ c, s.clients[i]? = some c ∧ s1.server_socket = s.server_socket ∧
      s1.max_fd = s.max_fd ∧
      ((s1.clients = s.clients.eraseIdx i ∧ s1.master_set = FD_CLR c.socket s.master_set) ∨
        (s1.master_set = s.master_set ∧
          ∃ c1, c1.socket = c.socket ∧ s1.clients = s.clients.set i c1) ∨
        (s1.master_set = s.master_set ∧ s1.clients = s.clients)) := by
  cases hc : s.clients[i]? with
  | none => simp [handleClientMessage, hc] at h
  | some c =>
    refine ⟨c, rfl, ?_⟩
    simp only [handleClientMessage, hc] at h
    split_ifs at h
    all_goals cases h
    all_goals first
      | exact ⟨rfl, rfl, Or.inr (Or.inr ⟨rfl, rfl⟩)⟩
      | exact ⟨rfl, rfl, Or.inl ⟨rfl, rfl⟩⟩
      | exact ⟨rfl, rfl, Or.inr (Or.inl ⟨rfl, ⟨c.socket, _, true⟩, rfl, rfl⟩)⟩

theorem handle_length_le (env : Env) (i : Nat) (s s1 : State)
    (h : handleClientMessage env i s = Except.ok s1) :
    s1.clients.length ≤ s.clients.length := by
  obtain ⟨c, _, _, _, h1 | h1 | h1⟩ := handle_registry env i s s1 h
  · rw [h1.1]
    exact List.length_eraseIdx_le _ _
  · obtain ⟨_, c1, _, h2⟩ := h1
    simp [h2]
  · simp [h1.2]

theorem accept_registry (env : Env) (s : State) :
    (acceptNewClient env s).server_socket = s.server_socket ∧
    (((acceptNewClient env s).clients = s.clients ∧
        (acceptNewClient env s).master_set = s.master_set ∧
        (acceptNewClient env s).max_fd = s.max_fd) ∨
      (0 ≤ (env.accept s.trace).1 ∧ s.clients.length < MAX_CLIENTS ∧
        (acceptNewClient env s).clients =
          s.clients ++ [⟨(env.accept s.trace).1, "", false⟩] ∧
        (acceptNewClient env s).master_set = FD_SET (env.accept s.trace).1 s.master_set ∧
        (acceptNewClient env s).max_fd =
          if (env.accept s.trace).1 > s.max_fd then (env.accept s.trace).1 else s.max_fd)) := by
  by_cases h1 : (env.accept s.trace).1 < 0
  · simp [acceptNewClient, h1, emit]
  · by_cases h2 : MAX_CLIENTS ≤ s.clients.length
    · simp [acceptNewClient, h1, h2, emit]
    · have h3 : 0 ≤ (env.accept s.trace).1 := by omega
      have h4 : s.clients.length < MAX_CLIENTS := by omega
      simp [acceptNewClient, h1, h2, emit, h3, h4]

/-! ## Invariants of the registry -/

theorem map_socket_set (clients : List Client) (i : Nat) (c c1 : Client)
    (hc : clients[i]? = some c) (hsock : c1.socket = c.socket) :
    (clients.set i c1).map Client.socket = clients.map Client.socket := by
  induction clients generalizing i with
  | nil => simp
  | cons a t ih =>
    cases i with
    | zero =>
      simp at hc
      subst hc
      simp [hsock]
    | succ j =>
      simp at hc
      simp [ih j hc]

theorem mem_map_socket_eraseIdx (clients : List Client) (i : Nat) (c : Client)
    (hc : clients[i]? = some c) (hnd : (clients.map Client.socket).Nodup) (fd : Int) :
    fd ∈ (clients.eraseIdx i).map Client.socket ↔
      fd ∈ clients.map Client.socket ∧ fd ≠ c.socket := by
  induction clients generalizing i with
  | nil => simp at hc
  | cons a t ih =>
    simp only [List.map_cons, List.nodup_cons] at hnd
    cases i with
    | zero =>
      simp at hc
      subst hc
      simp only [List.eraseIdx_cons_zero, List.map_cons, List.mem_cons]
      constructor
      · intro h
        exact ⟨Or.inr h, fun e => hnd.1 (e ▸ h)⟩
      · rintro ⟨h | h, hne⟩
        · exact absurd h hne
        · exact h
    | succ j =>
      simp at hc
      have hmem : c.socket ∈ t.map Client.socket :=
        List.mem_map_of_mem Client.socket (List.getElem?_mem hc)
      simp only [List.eraseIdx_cons_succ, List.map_cons, List.mem_cons, ih j hc hnd.2]
      constructor
      · rintro (h | h)
        · exact ⟨Or.inl h, fun e => hnd.1 (h ▸ e ▸ hmem)⟩
        · exact ⟨Or.inr h.1, h.2⟩
      · rintro ⟨h | h, hne⟩
        · exact Or.inl h
        · exact Or.inr ⟨h, hne⟩

theorem nodup_map_socket_eraseIdx (clients : List Client) (i : Nat)
    (hnd : (clients.map Client.socket).Nodup) :
    ((clients.eraseIdx i).map Client.socket).Nodup :=
  List.Nodup.sublist (List.Sublist.map Client.socket (List.eraseIdx_sublist clients i)) hnd

/-- The invariant behind the watched-set claim, with the fact that no record
sits on the listening handle. -/
theorem watched_invariant (env : Env) (sock : Int) (s : State)
    (hreach : Reachable env (AcceptFresh env) (initState sock) s) :
    s.server_socket = sock ∧
    sock ∉ s.clients.map Client.socket ∧
    (s.clients.map Client.socket).Nodup ∧
    (∀ fd, FD_ISSET fd s.master_set = true ↔ fd = sock ∨ fd ∈ s.clients.map Client.socket) ∧
    (∀ fd, FD_ISSET fd s.master_set = true → fd ≤ s.max_fd) := by
  induction hreach with
  | start =>
    refine ⟨rfl, by simp [initState], by simp [initState], ?_, ?_⟩
    · intro fd
      simp [initState, FD_ISSET, FD_SET, FD_ZERO]
    · intro fd
      simp only [initState, FD_ISSET, FD_SET, FD_ZERO]
      intro h
      by_cases hfd : fd = sock
      · simp [hfd]
      · simp [hfd] at h
  | accept t _ hfresh ih =>
    obtain ⟨h1, h2, h3, h4, h5⟩ := ih
    obtain ⟨hs, h | h⟩ := accept_registry env t
    · rw [hs, h.1, h.2.1, h.2.2]
      exact ⟨h1, h2, h3, h4, h5⟩
    · obtain ⟨hok, _, hcl, hms, hmax⟩ := h
      obtain ⟨hf1, hf2⟩ := hfresh hok
      rw [h1] at hf1
      have hnew : (env.accept t.trace).1 ∉ t.clients.map Client.socket := by
        intro hm
        obtain ⟨r, hr, he⟩ := List.mem_map.mp hm
        exact hf2 r hr he
      rw [hs, hcl, hms, hmax]
      refine ⟨h1, ?_, ?_, ?_, ?_⟩
      · simp only [List.map_append, List.map_cons, List.map_nil, List.mem_append,
          List.mem_singleton, not_or]
        exact ⟨h2, fun e => hf1 e.symm⟩
      · rw [List.map_append, List.nodup_append]
        refine ⟨h3, by simp, ?_⟩
        intro a ha hb
        simp only [List.map_cons, List.map_nil, List.mem_singleton] at hb
        exact hnew (hb ▸ ha)
      · intro fd
        have h4fd := h4 fd
        simp only [FD_ISSET] at h4fd
        simp only [FD_ISSET, FD_SET, List.map_append, List.map_cons, List.map_nil,
          List.mem_append, List.mem_singleton]
        by_cases hfd : fd = (env.accept t.trace).1
        · simp [hfd]
        · simp [hfd, h4fd]
      · intro fd
        have h5fd := h5 fd
        simp only [FD_ISSET] at h5fd
        simp only [FD_ISSET, FD_SET]
        by_cases hfd : fd = (env.accept t.trace).1
        · intro _
          split_ifs <;> omega
        · simp only [hfd, if_false]
          intro hset
          have := h5fd hset
          split_ifs <;> omega
  | read t t1 i _ hstep ih =>
    obtain ⟨h1, h2, h3, h4, h5⟩ := ih
    obtain ⟨c, hc, hs, hmax, h | h | h⟩ := handle_registry env i t t1 hstep
    · obtain ⟨hcl, hms⟩ := h
      have hcs : c.socket ≠ sock := by
        intro e
        exact h2 (e ▸ List.mem_map_of_mem Client.socket (List.getElem?_mem hc))
      rw [hs, hcl, hms, hmax]
      refine ⟨h1, ?_, nodup_map_socket_eraseIdx t.clients i h3, ?_, ?_⟩
      · intro hm
        exact h2 ((mem_map_socket_eraseIdx t.clients i c hc h3 sock).mp hm).1
      · intro fd
        have h4fd := h4 fd
        simp only [FD_ISSET] at h4fd
        rw [mem_map_socket_eraseIdx t.clients i c hc h3 fd]
        simp only [FD_ISSET, FD_CLR]
        by_cases hfd : fd = c.socket
        · simp [hfd, hcs]
        · simp [hfd, h4fd]
      · intro fd
        have h5fd := h5 fd
        simp only [FD_ISSET] at h5fd
        simp only [FD_ISSET, FD_CLR]
        by_cases hfd : fd = c.socket
        · simp [hfd]
        · simpa [hfd] using h5fd
    · obtain ⟨hms, c1, hc1, hcl⟩ := h
      rw [hs, hcl, hms, hmax, map_socket_set t.clients i c c1 hc hc1]
      exact ⟨h1, h2, h3, h4, h5⟩
    · rw [hs, h.1, h.2, hmax]
      exact ⟨h1, h2, h3, h4, h5⟩

theorem reachable_acceptTimes (env : Env) (s0 : State) (n : Nat) :
    Reachable env (fun _ => True) s0 (acceptTimes env n s0) := by
  induction n with
  | zero => exact Reachable.start
  | succ k ih => exact Reachable.accept _ ih trivial

theorem clientLoop_ok (env : Env) (working_set : FdSet) (fuel : Nat) :
    ∀ (i : Nat) (s : State), i ≤ s.clients.length → s.clients.length < fuel + i →
      ∃ s1, clientLoop env working_set fuel i s = Except.ok s1 := by
  induction fuel with
  | zero =>
    intro i s h1 h2
    omega
  | succ n ih =>
    intro i s h1 h2
    by_cases hi : i < s.clients.length
    · have hc : s.clients[i]? = some s.clients[i] := List.getElem?_eq_getElem hi
      by_cases hready : FD_ISSET s.clients[i].socket working_set = true
      · obtain ⟨s1, hs1⟩ := handle_total env i s hi
        have hlen := handle_length_le env i s s1 hs1
        by_cases hdead : s1.killed = true
        · exact ⟨s1, by simp [clientLoop, hi, hready, hs1, hdead]⟩
        · by_cases hbreak : i ≥ s1.clients.length
          · exact ⟨s1, by simp [clientLoop, hi, hready, hs1, hbreak]⟩
          · obtain ⟨s2, hs2⟩ := ih (i + 1) s1 (by omega) (by omega)
            exact ⟨s2, by simp [clientLoop, hi, hready, hs1, hbreak, hs2, hdead]⟩
      · obtain ⟨s2, hs2⟩ := ih (i + 1) s (by omega) (by omega)
        exact ⟨s2, by simp [clientLoop, hi, hready, hs2]⟩
    · exact ⟨s, by simp [clientLoop, hi]⟩

/-- The client loop only takes `handleClientMessage` steps: a state it returns
is reachable from the state it was entered in. -/
theorem clientLoop_reachable (env : Env) (acceptOk : State → Prop) (s0 : State)
    (working_set : FdSet) (fuel : Nat) :
    ∀ (i : Nat) (s s1 : State), Reachable env acceptOk s0 s →
      clientLoop env working_set fuel i s = Except.ok s1 → Reachable env acceptOk s0 s1 := by
  induction fuel with
  | zero =>
    intro i s s1 _ h
    simp [clientLoop] at h
  | succ n ih =>
    intro i s s1 hr h
    by_cases hi : i < s.clients.length
    · have hc : s.clients[i]? = some s.clients[i] := List.getElem?_eq_getElem hi
      by_cases hready : FD_ISSET s.clients[i].socket working_set = true
      · obtain ⟨s2, hs2⟩ := handle_total env i s hi
        have hr2 : Reachable env acceptOk s0 s2 := Reachable.read s s2 i hr hs2
        by_cases hdead : s2.killed = true
        · simp [clientLoop, hi, hready, hs2, hdead] at h
          exact h ▸ hr2
        · by_cases hbreak : i ≥ s2.clients.length
          · simp [clientLoop, hi, hready, hs2, hbreak] at h
            exact h ▸ hr2
          · simp [clientLoop, hi, hready, hs2, hbreak, hdead] at h
            exact ih (i + 1) s2 s1 hr2 h
      · simp [clientLoop, hi, hready] at h
        exact ih (i + 1) s s1 hr h
    · simp [clientLoop, hi] at h
      exact h ▸ hr

/-! ## The claims -/

/-- C1, amended: chat relay. For every registry state, every index `i` of an
authenticated record `c` and every read on its handle that delivers at least one
byte, if no `send` of the chat line to a record of the fan-out set raises
SIGPIPE, then `handleClientMessage i` returns normally and the sends it
performed are exactly one send of `username(i) + ": " + text + "\n"` to each
record that is authenticated and whose handle differs from the sender's, in
registry order, where `text` is the received bytes before the first newline or
NUL byte. Every destination is an authenticated record of the registry, none is
the sender's handle, and whatever the sends return (any subset of them
returning a failure) all of them are attempted and the registry, the watched
set and `max_fd` are left unchanged. -/
theorem chat_relay (env : Env) (s : State) (i : Nat) (c : Client) (bytes : List Char)
    (hc : s.clients[i]? = some c) (hauth : c.authenticated = true)
    (hrecv : env.recv s.trace c.socket = some bytes) (hpos : bytes ≠ [])
    (hlive : ∀ tr, ∀ r ∈ recipients s.clients c.socket,
      env.sigpipe tr r.socket (c.username ++ ": " ++ firstLine bytes ++ "\n") = false) :
    ∃ s1, handleClientMessage env i s = Except.ok s1 ∧
      sendsOf (newEvents s s1) =
        (recipients s.clients c.socket).map
          (fun r => (r.socket, c.username ++ ": " ++ firstLine bytes ++ "\n")) ∧
      (∀ r ∈ recipients s.clients c.socket,
        r ∈ s.clients ∧ r.authenticated = true ∧ r.socket ≠ c.socket) ∧
      (∀ p ∈ sendsOf (newEvents s s1), p.1 ≠ c.socket) ∧
      closesOf (newEvents s s1) = [] ∧
      s1.clients = s.clients ∧ s1.master_set = s.master_set ∧ s1.max_fd = s.max_fd ∧
      s1.killed = s.killed := by
  obtain ⟨evs, h1, h2, h3, _⟩ := broadcastLoop_spec env
    (c.username ++ ": " ++ firstLine bytes ++ "\n") c.socket s.clients
    (s.trace ++ [Event.recv c.socket (recvInto (some bytes)).1,
      Event.cout (c.username ++ ": " ++ firstLine bytes ++ "\n")]) hlive
  refine ⟨_, handle_chat env i s c bytes hc hrecv hpos hauth, ?_⟩
  rw [newEvents_of_trace s _ ([Event.recv c.socket (recvInto (some bytes)).1,
      Event.cout (c.username ++ ": " ++ firstLine bytes ++ "\n")] ++ evs)
    (by simp [broadcastMessage, h1])]
  have hs : sendsOf ([Event.recv c.socket (recvInto (some bytes)).1,
            Event.cout (c.username ++ ": " ++ firstLine bytes ++ "\n")] ++ evs) =
      (recipients s.clients c.socket).map
          (fun r => (r.socket, c.username ++ ": " ++ firstLine bytes ++ "\n")) := by
    simp [sendsOf_append, sendsOf, h2]
  rw [hs]
  refine ⟨rfl, mem_recipients s.clients c.socket, ?_, ?_, rfl, rfl, rfl, ?_⟩
  · intro p hp
    obtain ⟨r, hr, rfl⟩ := List.mem_map.mp hp
    exact (mem_recipients _ _ r hr).2.2
  · simp [closesOf_append, closesOf, h3]
  · simp [broadcastMessage, h1]

theorem chat_relay_witness :
    sampleState.clients[0]? = some ⟨4, "alice", true⟩ ∧
    ∃ s1, handleClientMessage (envOf (some hiBytes)) 0 sampleState = Except.ok s1 ∧
      sendsOf (newEvents sampleState s1) =
        (recipients sampleState.clients 4).map
          (fun r => (r.socket, "alice" ++ ": " ++ firstLine hiBytes ++ "\n")) ∧
      (∀ r ∈ recipients sampleState.clients 4,
        r ∈ sampleState.clients ∧ r.authenticated = true ∧ r.socket ≠ 4) ∧
      (∀ p ∈ sendsOf (newEvents sampleState s1), p.1 ≠ 4) ∧
      closesOf (newEvents sampleState s1) = [] ∧
      s1.clients = sampleState.clients ∧ s1.master_set = sampleState.master_set ∧
      s1.max_fd = sampleState.max_fd ∧ s1.killed = sampleState.killed :=
  ⟨rfl, chat_relay (envOf (some hiBytes)) sampleState 0 ⟨4, "alice", true⟩ hiBytes rfl rfl rfl
    (by decide) (fun _ _ _ => rfl)⟩

/-- The scenario of the specification, with the one send returning a failure:
alice's line `hi` is sent to bob, the failure is logged, nothing else happens. -/
theorem chat_relay_sample :
    ∃ s1, handleClientMessage (envOf (some hiBytes)) 0 sampleState = Except.ok s1 ∧
      newEvents sampleState s1 =
        [Event.recv 4 3, Event.cout "alice: hi\n", Event.send 5 "alice: hi\n" (-1),
          Event.cerr "Error: Failed to send message to client\n"] ∧
      s1.clients = sampleState.clients ∧ s1.killed = false :=
  ⟨_, rfl, by decide, by decide, by decide⟩

/-- A relay cut short: bob's connection is reset, the send of alice's line to
him raises SIGPIPE, the process is killed and carol is not served. -/
theorem chat_relay_cut_by_sigpipe :
    ∃ s1, handleClientMessage (envReset5 (some hiBytes)) 0 trioState = Except.ok s1 ∧
      newEvents trioState s1 =
        [Event.recv 4 3, Event.cout "alice: hi\n", Event.sigpipe 5 "alice: hi\n"] ∧
      s1.killed = true :=
  ⟨_, rfl, by decide, by decide⟩

/-- C1 as stated fails on a read that holds a NUL byte before the first newline:
bob's bytes `h`, NUL, `i`, newline reach alice as `bob: h`, not as the received
bytes before the first newline. -/
theorem chat_relay_stops_at_nul :
    ∃ s1, handleClientMessage (envOf (some nulBytes)) 1 sampleState = Except.ok s1 ∧
      sendsOf (newEvents sampleState s1) = [(4, "bob: h\n")] ∧
      sendsOf (newEvents sampleState s1) ≠
        (recipients sampleState.clients 5).map
          (fun r => (r.socket, "bob" ++ ": " ++ bytesBeforeNewline nulBytes ++ "\n")) :=
  ⟨_, rfl, by decide, by decide⟩

/-- C4, amended: the first line is the username claim. For every index `i` of an
unauthenticated record `c` and every read that delivers at least one byte (any
content), if neither the send of the welcome line nor a send of the join notice
to a record of the fan-out set raises SIGPIPE, then `handleClientMessage i`
returns normally; record `i` becomes authenticated with username the received
bytes before the first newline or NUL byte; the sends are the welcome line to
handle `i` followed by one join notice to each authenticated record whose handle
differs from `i`'s, in registry order (when the handles of the registry are
pairwise distinct these are exactly the authenticated records other than `i`);
no chat line is sent for this input, that is, no sent string consists of a
username (any string), `": "`, the received line and `"\n"`; no other record
changes and the registry keeps its length. -/
theorem first_line_is_username (env : Env) (s : State) (i : Nat) (c : Client)
    (bytes : List Char) (hc : s.clients[i]? = some c) (hauth : c.authenticated = false)
    (hrecv : env.recv s.trace c.socket = some bytes) (hpos : bytes ≠ [])
    (hwel : ∀ tr, env.sigpipe tr c.socket ("Welcome to the chat, " ++ firstLine bytes ++ "!\n")
      = false)
    (hlive : ∀ tr, ∀ r ∈ recipients s.clients c.socket,
      env.sigpipe tr r.socket ("Server: " ++ firstLine bytes ++ " has joined the chat\n")
        = false) :
    ∃ s1, handleClientMessage env i s = Except.ok s1 ∧
      s1.clients[i]? =
        some { socket := c.socket, username := firstLine bytes, authenticated := true } ∧
      sendsOf (newEvents s s1) =
        (c.socket, "Welcome to the chat, " ++ firstLine bytes ++ "!\n") ::
          (recipients s.clients c.socket).map
            (fun r => (r.socket, "Server: " ++ firstLine bytes ++ " has joined the chat\n")) ∧
      (∀ r ∈ recipients s.clients c.socket,
        r ∈ s.clients ∧ r.authenticated = true ∧ r.socket ≠ c.socket) ∧
      ((s.clients.map Client.socket).Nodup →
        recipients s.clients c.socket =
          (s.clients.eraseIdx i).filter (fun r => r.authenticated)) ∧
      (∀ p ∈ sendsOf (newEvents s s1), ∀ u : String,
        p.2 ≠ u ++ ": " ++ firstLine bytes ++ "\n") ∧
      closesOf (newEvents s s1) = [] ∧
      s1.clients.length = s.clients.length ∧
      (∀ j, j ≠ i → s1.clients[j]? = s.clients[j]?) ∧
      s1.master_set = s.master_set ∧ s1.max_fd = s.max_fd ∧ s1.killed = s.killed := by
  have hi : i < s.clients.length := (List.getElem?_eq_some.mp hc).1
  have hrec := recipients_set s.clients i c
    { socket := c.socket, username := firstLine bytes, authenticated := true } hc rfl
  obtain ⟨evs, h1, h2, h3, _⟩ := broadcastLoop_spec env
    ("Server: " ++ firstLine bytes ++ " has joined the chat\n") c.socket
    (s.clients.set i { socket := c.socket, username := firstLine bytes, authenticated := true })
    (s.trace ++ [Event.recv c.socket (recvInto (some bytes)).1,
      Event.cout ("Server: Client " ++ firstLine bytes ++ " connected\n"),
      Event.send c.socket ("Welcome to the chat, " ++ firstLine bytes ++ "!\n")
        (env.send (s.trace ++ [Event.recv c.socket (recvInto (some bytes)).1,
            Event.cout ("Server: Client " ++ firstLine bytes ++ " connected\n")])
          c.socket ("Welcome to the chat, " ++ firstLine bytes ++ "!\n"))])
    (by rw [hrec]; exact hlive)
  rw [hrec] at h2
  refine ⟨_, handle_join env i s c bytes hc hrecv hpos hauth hwel, ?_⟩
  rw [newEvents_of_trace s _ ([Event.recv c.socket (recvInto (some bytes)).1,
      Event.cout ("Server: Client " ++ firstLine bytes ++ " connected\n"),
      Event.send c.socket ("Welcome to the chat, " ++ firstLine bytes ++ "!\n")
        (env.send (s.trace ++ [Event.recv c.socket (recvInto (some bytes)).1,
            Event.cout ("Server: Client " ++ firstLine bytes ++ " connected\n")])
          c.socket ("Welcome to the chat, " ++ firstLine bytes ++ "!\n"))] ++ evs)
    (by simp [broadcastMessage, h1])]
  have hs : sendsOf ([Event.recv c.socket (recvInto (some bytes)).1,
      Event.cout ("Server: Client " ++ firstLine bytes ++ " connected\n"),
      Event.send c.socket ("Welcome to the chat, " ++ firstLine bytes ++ "!\n")
        (env.send (s.trace ++ [Event.recv c.socket (recvInto (some bytes)).1,
            Event.cout ("Server: Client " ++ firstLine bytes ++ " connected\n")])
          c.socket ("Welcome to the chat, " ++ firstLine bytes ++ "!\n"))] ++ evs) =
      (c.socket, "Welcome to the chat, " ++ firstLine bytes ++ "!\n") ::
          (recipients s.clients c.socket).map
            (fun r => (r.socket, "Server: " ++ firstLine bytes ++ " has joined the chat\n")) := by
    simp [sendsOf_append, sendsOf, h2]
  rw [hs]
  refine ⟨?_, rfl, mem_recipients s.clients c.socket,
    fun hnd => recipients_of_nodup s.clients i c hnd hc, ?_, ?_, ?_, ?_, rfl, rfl, ?_⟩
  · simp [broadcastMessage, hi]
  · intro p hp u
    rcases List.mem_cons.mp hp with rfl | hp
    · exact welcome_ne_chat u (firstLine bytes)
    · obtain ⟨r, _, rfl⟩ := List.mem_map.mp hp
      exact join_ne_chat u (firstLine bytes)
  · simp [closesOf_append, closesOf, h3]
  · simp [broadcastMessage]
  · intro j hj
    simp [broadcastMessage, List.getElem?_set, Ne.symm hj]
  · simp [broadcastMessage, h1]

theorem first_line_is_username_witness :
    sampleState.clients[2]? = some ⟨6, "", false⟩ ∧
    ∃ s1, handleClientMessage (envOf (some hiBytes)) 2 sampleState = Except.ok s1 ∧
      s1.clients[2]? =
        some { socket := 6, username := firstLine hiBytes, authenticated := true } ∧
      sendsOf (newEvents sampleState s1) =
        (6, "Welcome to the chat, " ++ firstLine hiBytes ++ "!\n") ::
          (recipients sampleState.clients 6).map
            (fun r => (r.socket, "Server: " ++ firstLine hiBytes ++ " has joined the chat\n")) ∧
      (∀ r ∈ recipients sampleState.clients 6,
        r ∈ sampleState.clients ∧ r.authenticated = true ∧ r.socket ≠ 6) ∧
      ((sampleState.clients.map Client.socket).Nodup →
        recipients sampleState.clients 6 =
          (sampleState.clients.eraseIdx 2).filter (fun r => r.authenticated)) ∧
      (∀ p ∈ sendsOf (newEvents sampleState s1), ∀ u : String,
        p.2 ≠ u ++ ": " ++ firstLine hiBytes ++ "\n") ∧
      closesOf (newEvents sampleState s1) = [] ∧
      s1.clients.length = sampleState.clients.length ∧
      (∀ j, j ≠ 2 → s1.clients[j]? = sampleState.clients[j]?) ∧
      s1.master_set = sampleState.master_set ∧ s1.max_fd = sampleState.max_fd ∧
      s1.killed = sampleState.killed :=
  ⟨rfl, first_line_is_username (envOf (some hiBytes)) sampleState 2 ⟨6, "", false⟩ hiBytes
    rfl rfl rfl (by decide) (fun _ => rfl) (fun _ _ _ => rfl)⟩

theorem first_line_sample :
    ∃ s1, handleClientMessage (envOf (some hiBytes)) 2 sampleState = Except.ok s1 ∧
      s1.clients = [⟨4, "alice", true⟩, ⟨5, "bob", true⟩, ⟨6, "hi", true⟩] ∧
      sendsOf (newEvents sampleState s1) =
        [(6, "Welcome to the chat, hi!\n"), (4, "Server: hi has joined the chat\n"),
          (5, "Server: hi has joined the chat\n")] :=
  ⟨_, rfl, by decide, by decide⟩

/-- C4 as stated fails twice on the first read `h`, NUL, `i`, newline of the
record on handle 6. The username becomes `h`, not the received bytes before the
first newline; and the join notice sent to alice is a string of the chat form
`<username>: <text>\n`, with `Server` for the username. -/
theorem first_line_stops_at_nul :
    ∃ s1, handleClientMessage (envOf (some nulBytes)) 2 sampleState = Except.ok s1 ∧
      s1.clients[2]? = some ⟨6, "h", true⟩ ∧
      s1.clients[2]? ≠ some ⟨6, bytesBeforeNewline nulBytes, true⟩ ∧
      sendsOf (newEvents sampleState s1) =
        [(6, "Welcome to the chat, h!\n"), (4, "Server: h has joined the chat\n"),
          (5, "Server: h has joined the chat\n")] ∧
      (4, "Server" ++ ": " ++ "h has joined the chat" ++ "\n") ∈
        sendsOf (newEvents sampleState s1) :=
  ⟨_, rfl, by decide, by decide, by decide, by decide⟩

/-- The departure of a closed peer in a running process whose sends of the leave
notice all return: one notice per record of the fan-out set, then the handle is
cleared from the watched set and closed and the record erased. -/
theorem leave_when_sends_return (env : Env) (s : State) (i : Nat) (c : Client)
    (hc : s.clients[i]? = some c) (hrecv : env.recv s.trace c.socket = some [])
    (hrun : s.killed = false)
    (hlive : ∀ tr, ∀ r ∈ recipients s.clients c.socket,
      env.sigpipe tr r.socket ("Server: " ++ c.username ++ " has left the chat\n") = false) :
    ∃ s1, handleClientMessage env i s = Except.ok s1 ∧
      sendsOf (newEvents s s1) =
        (recipients s.clients c.socket).map
          (fun r => (r.socket, "Server: " ++ c.username ++ " has left the chat\n")) ∧
      FD_ISSET c.socket s1.master_set = false ∧
      (∀ fd, fd ≠ c.socket → FD_ISSET fd s1.master_set = FD_ISSET fd s.master_set) ∧
      closesOf (newEvents s s1) = [c.socket] ∧
      s1.clients = s.clients.eraseIdx i ∧ s1.killed = false := by
  obtain ⟨evs, h1, h2, h3, _⟩ := broadcastLoop_spec env
    ("Server: " ++ c.username ++ " has left the chat\n") c.socket s.clients
    (s.trace ++ [Event.recv c.socket 0,
      Event.cout ("Server: Client " ++ c.username ++ " disconnected\n")]) hlive
  refine ⟨_, handle_closed env i s c hc hrecv hrun (by rw [h1]), ?_⟩
  rw [newEvents_of_trace s _ ([Event.recv c.socket 0,
      Event.cout ("Server: Client " ++ c.username ++ " disconnected\n")] ++ evs ++
        [Event.close c.socket]) (by simp [h1])]
  refine ⟨?_, ?_, ?_, ?_, rfl, rfl⟩
  · simp [sendsOf_append, sendsOf, h2]
  · simp [FD_ISSET, FD_CLR]
  · intro fd hfd
    simp [FD_ISSET, FD_CLR, hfd]
  · simp [closesOf_append, closesOf, h3]

theorem leave_sample :
    ∃ s1, handleClientMessage (envOf (some [])) 0 sampleState = Except.ok s1 ∧
      sendsOf (newEvents sampleState s1) = [(5, "Server: alice has left the chat\n")] ∧
      closesOf (newEvents sampleState s1) = [4] ∧
      s1.clients = [⟨5, "bob", true⟩, ⟨6, "", false⟩] :=
  ⟨_, rfl, by decide, by decide, by decide⟩

/-- C5 at its failing input: alice, bob and carol are authenticated, alice's
peer has closed (zero-byte read on handle 4) and bob's connection has been
reset. The send of the leave notice to bob raises SIGPIPE and the process is
killed inside the broadcast: carol is sent nothing, handle 4 is neither cleared
from the watched set nor closed, and alice's record stays in the registry. -/
theorem leave_broadcast_killed_by_sigpipe :
    trioState.clients[0]? = some ⟨4, "alice", true⟩ ∧
    ∃ s1, handleClientMessage (envReset5 (some [])) 0 trioState = Except.ok s1 ∧
      newEvents trioState s1 =
        [Event.recv 4 0, Event.cout "Server: Client alice disconnected\n",
          Event.sigpipe 5 "Server: alice has left the chat\n"] ∧
      s1.killed = true ∧
      (7, "Server: alice has left the chat\n") ∉ sendsOf (newEvents trioState s1) ∧
      closesOf (newEvents trioState s1) = [] ∧
      FD_ISSET 4 s1.master_set = true ∧
      s1.clients = trioState.clients :=
  ⟨rfl, _, rfl, by decide, by decide, by decide, by decide, by decide, by decide⟩

/-- C6 at its failing input: the record on handle 6 has not authenticated and
its peer closes (zero-byte read). The code broadcasts a leave notice with the
empty username to both authenticated clients. -/
theorem unauthenticated_close_broadcasts :
    sampleState.clients[2]? = some ⟨6, "", false⟩ ∧
    ∃ s1, handleClientMessage (envOf (some [])) 2 sampleState = Except.ok s1 ∧
      sendsOf (newEvents sampleState s1) =
        [(4, "Server:  has left the chat\n"), (5, "Server:  has left the chat\n")] :=
  ⟨rfl, _, rfl, by decide⟩

/-- C7 at its failing input: alice (authenticated, handle 4) is removed after a
read error and bob, the other authenticated client, is sent nothing, where the
claim has `Server: alice has left the chat\n` sent to him. -/
theorem read_error_sends_no_leave_notice :
    sampleState.clients[0]? = some ⟨4, "alice", true⟩ ∧
    ∃ s1, handleClientMessage (envOf none) 0 sampleState = Except.ok s1 ∧
      s1.clients = [⟨5, "bob", true⟩, ⟨6, "", false⟩] ∧
      sendsOf (newEvents sampleState s1) = [] ∧
      (5, "Server: alice has left the chat\n") ∉ sendsOf (newEvents sampleState s1) :=
  ⟨rfl, _, rfl, by decide, by decide, by decide⟩

/-- C2: capacity invariant. In every state reachable from a state with an empty
registry by any sequence of `acceptNewClient` and `handleClientMessage` steps
(any accept outcomes, any read results, any send results), the registry holds at
most `MAX_CLIENTS` = 10 records. -/
theorem capacity_invariant (env : Env) (s0 s : State) (hempty : s0.clients = [])
    (hreach : Reachable env (fun _ => True) s0 s) :
    s.clients.length ≤ MAX_CLIENTS ∧ MAX_CLIENTS = 10 := by
  refine ⟨?_, rfl⟩
  induction hreach with
  | start => simp [hempty]
  | accept t _ _ ih =>
    rcases (accept_registry env t).2 with h | h
    · rw [h.1]
      exact ih
    · rw [h.2.2.1, List.length_append]
      have := h.2.1
      simp only [List.length_singleton]
      omega
  | read t t1 i _ hstep ih => exact le_trans (handle_length_le env i t t1 hstep) ih

theorem capacity_invariant_witness :
    (initState 3).clients = [] ∧
    Reachable envCounting (fun _ => True) (initState 3) (acceptTimes envCounting 12 (initState 3)) ∧
    (acceptTimes envCounting 12 (initState 3)).clients.length ≤ MAX_CLIENTS ∧ MAX_CLIENTS = 10 :=
  ⟨rfl, reachable_acceptTimes envCounting (initState 3) 12,
    capacity_invariant envCounting (initState 3) (acceptTimes envCounting 12 (initState 3)) rfl
      (reachable_acceptTimes envCounting (initState 3) 12)⟩

theorem capacity_sample :
    (acceptTimes envCounting 12 (initState 3)).clients.length = 10 ∧
    (acceptTimes envCounting 10 (initState 3)).clients.length = 10 ∧
    (acceptTimes envCounting 9 (initState 3)).clients.length = 9 := by
  decide

/-- C10: watched-set invariant. Assume every successful `accept` returns a
handle that is neither the listening handle nor the handle of a record of the
registry. Then in every state reachable from the state in which `run` has
registered the listening handle, by any sequence of `acceptNewClient` and
`handleClientMessage` steps, the handles of the records are pairwise distinct,
the watched set is exactly the listening handle together with the handles of the
records, and `max_fd` is at least every handle of the watched set. -/
theorem watched_set_invariant (env : Env) (sock : Int) (s : State)
    (hreach : Reachable env (AcceptFresh env) (initState sock) s) :
    (s.clients.map Client.socket).Nodup ∧
    (∀ fd, FD_ISSET fd s.master_set = true ↔
      fd = s.server_socket ∨ ∃ r ∈ s.clients, r.socket = fd) ∧
    (∀ fd, FD_ISSET fd s.master_set = true → fd ≤ s.max_fd) := by
  obtain ⟨h1, _, h3, h4, h5⟩ := watched_invariant env sock s hreach
  refine ⟨h3, ?_, h5⟩
  intro fd
  rw [h4 fd, h1]
  simp [List.mem_map]

theorem watched_set_invariant_witness :
    Reachable envCounting (AcceptFresh envCounting) (initState 3) watchedSample ∧
    (watchedSample.clients.map Client.socket).Nodup ∧
    (∀ fd, FD_ISSET fd watchedSample.master_set = true ↔
      fd = watchedSample.server_socket ∨ ∃ r ∈ watchedSample.clients, r.socket = fd) ∧
    (∀ fd, FD_ISSET fd watchedSample.master_set = true → fd ≤ watchedSample.max_fd) :=
  have hreach : Reachable envCounting (AcceptFresh envCounting) (initState 3) watchedSample :=
    Reachable.read _ _ 0
      (Reachable.accept _
        (Reachable.accept _ Reachable.start (by unfold AcceptFresh; decide))
        (by unfold AcceptFresh; decide))
      rfl
  ⟨hreach, watched_set_invariant envCounting 3 watchedSample hreach⟩

theorem watched_sample :
    watchedSample.clients = [⟨7, "", false⟩] ∧ watchedSample.max_fd = 7 ∧
    FD_ISSET 3 watchedSample.master_set = true ∧ FD_ISSET 4 watchedSample.master_set = false ∧
    FD_ISSET 7 watchedSample.master_set = true := by
  decide

/-- C9: no out-of-bounds access during a tick. For every registry, every ready
set and every behaviour of the environment (any read results, hence any number
of removals), the client loop of `run`, started at index 0 with a budget of
`clients.size() + 1` iterations, ends normally: it never reaches
`Fault.outOfBounds`, the outcome of a `clients[i]` or `handleClientMessage(i)`
whose index is not below the current length of the registry, and it never runs
out of budget. (A loop cut short because the process was killed by SIGPIPE
ends in `Except.ok` with `killed` set.) -/
theorem tick_in_bounds (env : Env) (working_set : FdSet) (s : State) :
    ∃ s1, clientLoop env working_set (s.clients.length + 1) 0 s = Except.ok s1 :=
  clientLoop_ok env working_set (s.clients.length + 1) 0 s (Nat.zero_le _) (by omega)

/-- C8 at its failing input: the registry `[A, B]` with both handles ready and
a zero-byte read on A. The loop reads handle 4 only; B, still registered and
ready, is not read in this tick. -/
theorem tick_skips_record_after_removal :
    pairState.clients = [⟨4, "alice", true⟩, ⟨5, "bob", true⟩] ∧
    FD_ISSET 4 ready45 = true ∧ FD_ISSET 5 ready45 = true ∧
    ∃ s1, clientLoop (envClosed4 hiBytes) ready45 (pairState.clients.length + 1) 0 pairState
        = Except.ok s1 ∧
      recvsOf (newEvents pairState s1) = [4] ∧
      s1.clients = [⟨5, "bob", true⟩] :=
  ⟨rfl, rfl, rfl, _, rfl, by decide, by decide⟩

end ChatServer
